import Mathlib

set_option maxHeartbeats 1000000

/-!
Verification development for the `actix-flash` middleware (src/lib.rs).

The first part models the JSON wire layer used by the flash cookie codec:
a `Json` value type, a printer and a parser, faithful to how `serde_json`
serializes `ValuedMessageRef` (an object with the single key `_`) and
deserializes `ValuedMessage` (an object carrying the key `_`, other keys
ignored, duplicate `_` rejected).  Numbers are modelled as integers.

The second part models the cookie lifecycle: `Cookie`, `CookieJar`
(`add_original` / `remove` / `delta`, following the `cookie` crate),
the request/response types, the `Message` extractor, the `Response`
carrier and `FlashMiddleware::call`.
-/

/-- JSON values (the serde_json data model, numbers restricted to integers). -/
inductive Json : Type where
  | null : Json
  | bool : Bool → Json
  | num : Int → Json
  | str : String → Json
  | arr : List Json → Json
  | obj : List (String × Json) → Json

/-- The character for a decimal digit value. -/
def digitChar (d : Nat) : Char := Char.ofNat (48 + d)

/-- Decimal printing of a natural number. -/
def printNat (n : Nat) : List Char :=
  if n = 0 then ['0'] else ((Nat.digits 10 n).reverse).map digitChar

/-- Decimal printing of an integer. -/
def printInt (i : Int) : List Char :=
  if i < 0 then '-' :: printNat i.natAbs else printNat i.natAbs

/-- JSON string-body escaping: quote and backslash get a backslash prefix. -/
def escapeChars : List Char → List Char
  | [] => []
  | c :: cs =>
    if c = '\"' ∨ c = '\\' then '\\' :: c :: escapeChars cs else c :: escapeChars cs

mutual

/-- Print a JSON value as JSON text (no added whitespace). -/
def printJson : Json → List Char
  | .str s => '\"' :: (escapeChars s.data ++ ['\"'])
  | .num i => printInt i
  | .bool false => ['f', 'a', 'l', 's', 'e']
  | .bool true => ['t', 'r', 'u', 'e']
  | .null => ['n', 'u', 'l', 'l']
  | .arr [] => ['[', ']']
  | .arr (x :: xs) => '[' :: (printElems x xs ++ [']'])
  | .obj [] => ['\x7b', '\x7d']
  | .obj (f :: fs) => '\x7b' :: (printFields f fs ++ ['\x7d'])
termination_by j => sizeOf j

/-- Print a nonempty comma-separated list of array elements. -/
def printElems : Json → List Json → List Char
  | x, [] => printJson x
  | x, y :: ys => printJson x ++ ',' :: printElems y ys
termination_by x xs => 1 + sizeOf x + sizeOf xs

/-- Print a nonempty comma-separated list of object fields. -/
def printFields : (String × Json) → List (String × Json) → List Char
  | f, [] => printField f
  | f, g :: gs => printField f ++ ',' :: printFields g gs
termination_by f fs => 1 + sizeOf f + sizeOf fs

/-- Print one object field: quoted key, colon, value. -/
def printField : (String × Json) → List Char
  | (k, v) => '\"' :: (escapeChars k.data ++ '\"' :: ':' :: printJson v)
termination_by f => sizeOf f

end

/-- Whitespace recognised by the parser. -/
def isWsChar (c : Char) : Bool := c == ' ' || c == '\t' || c == '\n' || c == '\r'

/-- Skip leading whitespace. -/
def skipWs : List Char → List Char
  | [] => []
  | c :: cs => if isWsChar c then skipWs cs else c :: cs

/-- Parse the body of a JSON string literal (after the opening quote),
returning the unescaped characters and the remaining input. -/
def parseStringBody : List Char → Option (List Char × List Char)
  | [] => none
  | c :: cs =>
    if c = '\"' then some ([], cs)
    else if c = '\\' then
      match cs with
      | [] => none
      | c2 :: cs2 =>
        if c2 = '\"' ∨ c2 = '\\' then
          (parseStringBody cs2).map (fun p => (c2 :: p.1, p.2))
        else none
    else (parseStringBody cs).map (fun p => (c :: p.1, p.2))

/-- Take a maximal run of decimal digits, as digit values (most significant first). -/
def takeDigits : List Char → (List Nat × List Char)
  | [] => ([], [])
  | c :: cs =>
    if c.isDigit then
      let p := takeDigits cs
      ((c.toNat - 48) :: p.1, p.2)
    else ([], c :: cs)

/-- Parse a nonempty run of decimal digits as a natural number. -/
def parseNat (cs : List Char) : Option (Nat × List Char) :=
  match takeDigits cs with
  | ([], _) => none
  | (ds, r) => some (Nat.ofDigits 10 ds.reverse, r)

/-- The remaining input does not start with a digit (so that a parsed number
cannot be extended by the context). -/
def delimOk (rest : List Char) : Bool :=
  match rest with
  | [] => true
  | c :: _ => !c.isDigit

mutual

/-- Parse one JSON value (fuel-bounded recursion). -/
def parseVal : Nat → List Char → Option (Json × List Char)
  | 0, _ => none
  | fuel + 1, cs =>
    match skipWs cs with
    | [] => none
    | c :: rest =>
      if c = 'n' then
        match rest with
        | 'u' :: 'l' :: 'l' :: r => some (.null, r)
        | _ => none
      else if c = 't' then
        match rest with
        | 'r' :: 'u' :: 'e' :: r => some (.bool true, r)
        | _ => none
      else if c = 'f' then
        match rest with
        | 'a' :: 'l' :: 's' :: 'e' :: r => some (.bool false, r)
        | _ => none
      else if c = '\"' then
        (parseStringBody rest).map (fun p => (Json.str (String.mk p.1), p.2))
      else if c = '[' then
        match skipWs rest with
        | [] => none
        | c2 :: rest2 =>
          if c2 = ']' then some (.arr [], rest2)
          else (parseElems fuel (c2 :: rest2)).map (fun p => (Json.arr p.1, p.2))
      else if c = '\x7b' then
        match skipWs rest with
        | [] => none
        | c2 :: rest2 =>
          if c2 = '\x7d' then some (.obj [], rest2)
          else (parseFields fuel (c2 :: rest2)).map (fun p => (Json.obj p.1, p.2))
      else if c = '-' then
        (parseNat rest).map (fun p => (Json.num (-(p.1 : Int)), p.2))
      else if c.isDigit then
        (parseNat (c :: rest)).map (fun p => (Json.num ((p.1 : Nat) : Int), p.2))
      else none

/-- Parse the elements of a nonempty array, up to and including the closing bracket. -/
def parseElems : Nat → List Char → Option (List Json × List Char)
  | 0, _ => none
  | fuel + 1, cs =>
    match parseVal fuel cs with
    | none => none
    | some (j, rest) =>
      match skipWs rest with
      | [] => none
      | c :: r =>
        if c = ',' then (parseElems fuel r).map (fun p => (j :: p.1, p.2))
        else if c = ']' then some ([j], r)
        else none

/-- Parse the fields of a nonempty object, up to and including the closing brace. -/
def parseFields : Nat → List Char → Option (List (String × Json) × List Char)
  | 0, _ => none
  | fuel + 1, cs =>
    match skipWs cs with
    | [] => none
    | c :: rest =>
      if c = '\"' then
        match parseStringBody rest with
        | none => none
        | some (k, rest2) =>
          match skipWs rest2 with
          | [] => none
          | c2 :: rest3 =>
            if c2 = ':' then
              match parseVal fuel rest3 with
              | none => none
              | some (v, rest4) =>
                match skipWs rest4 with
                | [] => none
                | c3 :: r =>
                  if c3 = ',' then
                    (parseFields fuel r).map (fun p => ((String.mk k, v) :: p.1, p.2))
                  else if c3 = '\x7d' then some ([(String.mk k, v)], r)
                  else none
            else none
      else none

end

/-- Parse a complete JSON document (only trailing whitespace may remain). -/
def Json.parse (s : String) : Option Json :=
  match parseVal (s.data.length + 1) s.data with
  | some (j, rest) => if skipWs rest = [] then some j else none
  | none => none

/-- Print a JSON value as a string. -/
def Json.print (j : Json) : String := String.mk (printJson j)

/-!
The flash cookie envelope codec.

`encodeFlashValue` models `serde_json::to_string(&ValuedMessageRef { value: &v })`
(src/lib.rs lines 75-79 and 133): the value is wrapped in an object under the
single key `_`.  `decodeFlashValue` models
`serde_json::from_str::<ValuedMessage<T>>` (src/lib.rs lines 69-73 and 91):
the text must parse as a JSON object, the derived deserializer takes the value
of the field `_` (rejecting a duplicate occurrence, ignoring other fields) and
hands it to `T`'s deserializer `de`.
-/

/-- The derived field lookup for `ValuedMessage`: the value under the key `_`,
rejecting duplicates of that key, ignoring unrelated fields. -/
def getUnderscoreField : List (String × Json) → Option Json
  | [] => none
  | (k, v) :: rest =>
    if k = "_" then
      if rest.any (fun f => f.1 == "_") then none else some v
    else getUnderscoreField rest

/-- Encode a message value as the flash cookie string (object with key `_`). -/
def encodeFlashValue {T : Type} (ser : T → Json) (v : T) : String :=
  Json.print (Json.obj [("_", ser v)])

/-- Decode a flash cookie string back to a message value. -/
def decodeFlashValue {T : Type} (de : Json → Option T) (s : String) : Option T :=
  match Json.parse s with
  | some (Json.obj fields) =>
    match getUnderscoreField fields with
    | some p => de p
    | none => none
  | _ => none

/-!
The cookie lifecycle model: `Cookie` (name, value, path, and whether the
cookie is a removal cookie, i.e. carries an expiry in the past), `CookieJar`
following the `cookie` crate (`add_original` registers a cookie as already
present on the client; `remove` schedules a removal cookie in the delta when
an original with the same name exists; `delta` lists the scheduled changes).
-/

/-- A cookie: name, value, optional path, and whether it is a removal
(expired / empty) cookie. -/
structure Cookie where
  name : String
  value : String
  path : Option String := none
  removal : Bool := false
deriving Repr, DecidableEq

/-- Build a cookie with a name and a value (`Cookie::new`). -/
def Cookie.new (name value : String) : Cookie :=
  { name := name, value := value }

/-- Set the cookie path (`Cookie::set_path` / builder `.path`). -/
def Cookie.set_path (c : Cookie) (p : String) : Cookie :=
  { c with path := some p }

/-- Turn a cookie into a removal cookie: empty value, expiry in the past
(the `cookie` crate's `make_removal`). -/
def Cookie.make_removal (c : Cookie) : Cookie :=
  { c with value := "", removal := true }

/-- A cookie jar: the originals registered as already present, and the delta
of scheduled changes. -/
structure CookieJar where
  originals : List Cookie := []
  deltaCookies : List Cookie := []
deriving Repr, DecidableEq

/-- An empty jar (`CookieJar::new`). -/
def CookieJar.new : CookieJar := {}

/-- Register a cookie as originally present on the client (`add_original`). -/
def CookieJar.add_original (jar : CookieJar) (c : Cookie) : CookieJar :=
  { jar with originals := jar.originals ++ [c] }

/-- Request removal of a cookie: when an original with the same name exists,
a removal cookie is scheduled in the delta (`CookieJar::remove`). -/
def CookieJar.remove (jar : CookieJar) (c : Cookie) : CookieJar :=
  if jar.originals.any (fun o => o.name == c.name) then
    { jar with deltaCookies :=
        (jar.deltaCookies.filter (fun d => d.name ≠ c.name)) ++ [c.make_removal] }
  else
    { jar with deltaCookies := jar.deltaCookies.filter (fun d => d.name ≠ c.name) }

/-- The delta of Set-Cookie instructions accumulated in the jar. -/
def CookieJar.delta (jar : CookieJar) : List Cookie := jar.deltaCookies

/-!
The HTTP layer model: responses carry a status, plain headers, the ordered
list of Set-Cookie headers, and the response-scoped extension slot used for
the staged `FlashCookieValue` string.  Requests carry their cookies and the
request-scoped extension slot used for the stored `FlashCookie`.
-/

/-- An HTTP response: status, headers, Set-Cookie headers in order of
attachment, and the response extension slot holding a staged
`FlashCookieValue` string. -/
structure HttpResponse where
  status : Nat := 200
  headers : List (String × String) := []
  setCookies : List Cookie := []
  flashValueExt : Option String := none
deriving Repr, DecidableEq

/-- Append a Set-Cookie header (`HttpResponse::add_cookie`). -/
def HttpResponse.add_cookie (res : HttpResponse) (c : Cookie) : HttpResponse :=
  { res with setCookies := res.setCookies ++ [c] }

/-- An incoming service request: its cookies and the request extension slot
holding the stored `FlashCookie`. -/
structure ServiceRequest where
  cookies : List Cookie := []
  flashExt : Option Cookie := none
deriving Repr, DecidableEq

/-- Find the first cookie with the given name (`HttpRequest::cookie`). -/
def ServiceRequest.cookie (req : ServiceRequest) (name : String) : Option Cookie :=
  req.cookies.find? (fun c => c.name == name)

/-- A service response: the originating request paired with the produced
response (`ServiceResponse`). -/
structure ServiceResponse where
  request : ServiceRequest
  response : HttpResponse
deriving Repr, DecidableEq

/-!
The crate's public items, shallowly embedded from src/lib.rs.
-/

/-- The flash message wrapper (`pub struct Message<T>(T)`). -/
structure Message (T : Type) where
  val : T
deriving Repr, DecidableEq

/-- Wrap a value (`Message::new`, src/lib.rs lines 101-103). -/
def Message.new {T : Type} (inner : T) : Message T := ⟨inner⟩

/-- Unwrap the value (`Message::into_inner`, src/lib.rs lines 105-107). -/
def Message.into_inner {T : Type} (m : Message T) : T := m.val

/-- The single handler-facing extraction error (`ErrorBadRequest`). -/
inductive ExtractError : Type where
  | badRequest : String → ExtractError
deriving Repr, DecidableEq

/-- The extractor (`impl FromRequest for Message<T>`, src/lib.rs lines 89-97):
read the stored `FlashCookie` from the request extensions, decode its value;
on a missing cookie or a failed decode, fail with the one bad-request error. -/
def Message.from_request {T : Type} (de : Json → Option T) (req : ServiceRequest) :
    Except ExtractError (Message T) :=
  match req.flashExt with
  | some cookie =>
    match decodeFlashValue de cookie.value with
    | some value => .ok ⟨value⟩
    | none => .error (.badRequest "Invalid/missing flash cookie")
  | none => .error (.badRequest "Invalid/missing flash cookie")

/-- The flashing response carrier (`pub struct Response<R, T>`). -/
structure Response (R T : Type) where
  responder : R
  message : Option (Message T)

/-- Pair an optional message with a responder (`Response::new`,
src/lib.rs lines 148-150). -/
def Response.new {R T : Type} (message : Option T) (responder : R) : Response R T :=
  { responder := responder, message := message.map Message.mk }

/-- Build a 303 See Other redirect carrying a mandatory message
(`Response::with_redirect`, src/lib.rs lines 158-162). -/
def Response.with_redirect {T : Type} (message : T) (location : String) :
    Response HttpResponse T :=
  { responder := { status := 303, headers := [("Location", location)] },
    message := some ⟨message⟩ }

/-- Produce the final response (`impl Responder for Response`, src/lib.rs
lines 128-140, specialised to an inner `HttpResponse` responder): take the
message, and if present stage its encoding in the response extensions. -/
def Response.respond_to {T : Type} (ser : T → Json) (self : Response HttpResponse T) :
    HttpResponse :=
  match self.message with
  | some msg => { self.responder with flashValueExt := some (encodeFlashValue ser msg.val) }
  | none => self.responder

/-- The middleware transformer (`pub struct Flash`), holding the configured
cookie name. -/
structure Flash where
  cookie_name : String
deriving Repr, DecidableEq

/-- `Flash::new` (src/lib.rs lines 172-174). -/
def Flash.new (cookie_name : String) : Flash := ⟨cookie_name⟩

/-- `impl Default for Flash` (src/lib.rs lines 177-181). -/
def Flash.default : Flash := Flash.new "_flash"

/-- The request phase of `FlashMiddleware::call` (src/lib.rs lines 223-225):
if the request carries a cookie with the configured name, store it in the
request extensions as the `FlashCookie`. -/
def requestPhase (cookie_name : String) (req : ServiceRequest) : ServiceRequest :=
  match req.cookie cookie_name with
  | some cookie => { req with flashExt := some cookie }
  | none => req

/-- The response phase of `FlashMiddleware::call` (src/lib.rs lines 228-246):
if a `FlashCookieValue` is staged, attach a cookie with that value and path
`/`; then, unconditionally, if the originating request carried a cookie with
the configured name, schedule its removal through a cookie jar and attach the
jar's delta. -/
def responsePhase (cookie_name : String) (res : ServiceResponse) : ServiceResponse :=
  let res1 :=
    match res.response.flashValueExt with
    | some json =>
      { res with response :=
          res.response.add_cookie ((Cookie.new cookie_name json).set_path "/") }
    | none => res
  let jar :=
    match res1.request.cookie cookie_name with
    | some cookie =>
      (CookieJar.new.add_original cookie).remove ((Cookie.new cookie_name "").set_path "/")
    | none => CookieJar.new
  jar.delta.foldl (fun r c => { r with response := r.response.add_cookie c }) res1

/-- `FlashMiddleware::call` (src/lib.rs lines 220-248): run the request phase,
invoke the wrapped service, and on success run the response phase; a service
error propagates unchanged. -/
def FlashMiddleware.call {ε : Type} (cookie_name : String)
    (service : ServiceRequest → Except ε ServiceResponse)
    (req : ServiceRequest) : Except ε ServiceResponse :=
  (service (requestPhase cookie_name req)).map (responsePhase cookie_name)

/-!
Concrete fixtures used to evaluate the middleware on closed inputs.
-/

/-- An incoming flash cookie carrying an old message. -/
def c1Cookie : Cookie := { name := "_flash", value := "old", path := some "/" }

/-- A request presenting the old flash cookie. -/
def c1Req : ServiceRequest := { cookies := [c1Cookie] }

/-- A handler that stages a new flash payload. -/
def c1Service : ServiceRequest → Except Unit ServiceResponse := fun rq =>
  .ok { request := rq, response := { flashValueExt := some "new" } }

/-- An incoming flash cookie carrying an encoded message. -/
def w2Cookie : Cookie :=
  { name := "_flash", value := "\x7b\"_\":\"hello\"\x7d", path := some "/" }

/-- A request presenting that cookie. -/
def w2Req : ServiceRequest := { cookies := [w2Cookie] }

/-- The service response of a handler that stages nothing. -/
def w2Res : ServiceResponse :=
  { request := { cookies := [w2Cookie], flashExt := some w2Cookie }, response := {} }

/-- A handler that stages nothing. -/
def w2Service : ServiceRequest → Except Unit ServiceResponse := fun rq =>
  .ok { request := rq, response := {} }

/-- A request with no flash cookie. -/
def w3Req : ServiceRequest := { cookies := [] }

/-- The encoded payload staged by the w3 handler. -/
def w3Json : String := "\x7b\"_\":\"m\"\x7d"

/-- A handler that stages an encoded payload. -/
def w3Service : ServiceRequest → Except Unit ServiceResponse := fun rq =>
  .ok { request := rq, response := { flashValueExt := some w3Json } }

/-- The service response the w3 handler produces for the w3 request. -/
def w3Res : ServiceResponse :=
  { request := w3Req, response := { flashValueExt := some w3Json } }

/-- A request carrying only an unrelated cookie. -/
def w7Req : ServiceRequest := { cookies := [{ name := "other", value := "1" }] }

/-- The untouched response for the unrelated request. -/
def w7Res : ServiceResponse := { request := w7Req, response := {} }

/-- A handler that stages nothing. -/
def w7Service : ServiceRequest → Except Unit ServiceResponse := fun rq =>
  .ok { request := rq, response := {} }

/-- A handler that always fails. -/
def w9Service : ServiceRequest → Except String ServiceResponse := fun _ => .error "boom"

/-- A request whose extensions hold no flash cookie. -/
def w5ReqNone : ServiceRequest := { cookies := [] }

/-- A stored flash cookie whose value is not JSON. -/
def w5BadCookie : Cookie := { name := "_flash", value := "not-json" }

/-- A request whose stored flash cookie value is not JSON. -/
def w5ReqBad : ServiceRequest := { cookies := [], flashExt := some w5BadCookie }

/-- A stored flash cookie whose value is JSON without the key underscore. -/
def w5WrongCookie : Cookie :=
  { name := "_flash", value := "\x7b\"wrong_key\": 1\x7d" }

/-- A request whose stored flash cookie decodes to the wrong shape. -/
def w5ReqWrong : ServiceRequest := { cookies := [], flashExt := some w5WrongCookie }

/-!
Round-trip lemmas for the JSON layer.
-/

/-- Digit characters are digits and decode back to their value. -/
theorem digitChar_spec : ∀ d : Nat, d < 10 →
    (digitChar d).isDigit = true ∧ (digitChar d).toNat - 48 = d := by decide

/-- A digit character differs from any non-digit character. -/
theorem ne_of_isDigit {c d : Char} (h : c.isDigit = true) (hd : d.isDigit = false) :
    c ≠ d := by
  intro he
  subst he
  rw [h] at hd
  cases hd

/-- A digit character is not whitespace. -/
theorem isDigit_not_ws {c : Char} (h : c.isDigit = true) : isWsChar c = false := by
  have h1 : c ≠ ' ' := ne_of_isDigit h (by decide)
  have h2 : c ≠ '\t' := ne_of_isDigit h (by decide)
  have h3 : c ≠ '\n' := ne_of_isDigit h (by decide)
  have h4 : c ≠ '\r' := ne_of_isDigit h (by decide)
  simp [isWsChar, h1, h2, h3, h4]

/-- Skipping whitespace does nothing on input starting with a non-whitespace
character. -/
theorem skipWs_not_ws {c : Char} (h : isWsChar c = false) (l : List Char) :
    skipWs (c :: l) = c :: l := by
  simp [skipWs, h]

/-- Reading back a printed digit run recovers the digit values. -/
theorem takeDigits_of_map_digitChar :
    ∀ (ds : List Nat) (rest : List Char), (∀ d ∈ ds, d < 10) → delimOk rest = true →
      takeDigits (ds.map digitChar ++ rest) = (ds, rest) := by
  intro ds
  induction ds with
  | nil =>
    intro rest _ hrest
    cases rest with
    | nil => rfl
    | cons c t =>
      have hc : c.isDigit = false := by simpa [delimOk] using hrest
      simp [takeDigits, hc]
  | cons d ds ih =>
    intro rest hlt hrest
    have hd : d < 10 := hlt d (by simp)
    have h1 := digitChar_spec d hd
    have ih1 := ih rest (fun x hx => hlt x (by simp [hx])) hrest
    simp only [List.map_cons, List.cons_append, takeDigits, h1.1, if_pos,
      List.append_eq, ih1]
    simp [h1.2]

/-- Reading back a printed natural number recovers it. -/
theorem parseNat_printNat (n : Nat) (rest : List Char) (hrest : delimOk rest = true) :
    parseNat (printNat n ++ rest) = some (n, rest) := by
  by_cases hn : n = 0
  · subst hn
    have ht : takeDigits (printNat 0 ++ rest) = ([0], rest) := by
      have h1 := takeDigits_of_map_digitChar [0] rest (by simp) hrest
      simpa [printNat, digitChar] using h1
    unfold parseNat
    rw [ht]
    simp [Nat.ofDigits]
  · have hds : ∀ d ∈ (Nat.digits 10 n).reverse, d < 10 := by
      intro d hd
      exact Nat.digits_lt_base (by norm_num) (List.mem_reverse.mp hd)
    have hpr : printNat n = ((Nat.digits 10 n).reverse).map digitChar := by
      simp [printNat, hn]
    have h1 : takeDigits (printNat n ++ rest) = ((Nat.digits 10 n).reverse, rest) := by
      rw [hpr]
      exact takeDigits_of_map_digitChar _ rest hds hrest
    have hne : (Nat.digits 10 n).reverse ≠ [] := by
      simp [Nat.digits_ne_nil_iff_ne_zero, hn]
    obtain ⟨d, ds, hcons⟩ := List.exists_cons_of_ne_nil hne
    unfold parseNat
    rw [h1, hcons, ← hcons]
    simp [Nat.ofDigits_digits]

/-- Reading back an escaped string body, up to the closing quote, recovers
the characters. -/
theorem parseStringBody_escape :
    ∀ (l : List Char) (rest : List Char),
      parseStringBody (escapeChars l ++ '\"' :: rest) = some (l, rest) := by
  intro l
  induction l with
  | nil =>
    intro rest
    rw [show escapeChars [] ++ '\"' :: rest = '\"' :: rest from rfl,
      parseStringBody.eq_def]
    simp
  | cons c cs ih =>
    intro rest
    by_cases hc : c = '\"' ∨ c = '\\'
    · simp only [escapeChars, if_pos hc, List.cons_append]
      rw [parseStringBody.eq_def]
      simp [hc, ih rest]
    · have hc1 : ¬ c = '\"' := fun h => hc (Or.inl h)
      have hc2 : ¬ c = '\\' := fun h => hc (Or.inr h)
      simp only [escapeChars, if_neg hc, List.cons_append]
      rw [parseStringBody.eq_def]
      simp [hc1, hc2, ih rest]

/-- A printed natural number starts with a digit. -/
theorem printNat_cons (n : Nat) : ∃ c t, printNat n = c :: t ∧ c.isDigit = true := by
  by_cases hn : n = 0
  · subst hn
    exact ⟨'0', [], rfl, by decide⟩
  · have hne : (Nat.digits 10 n).reverse ≠ [] := by
      simp [Nat.digits_ne_nil_iff_ne_zero, hn]
    obtain ⟨d, ds, hcons⟩ := List.exists_cons_of_ne_nil hne
    have hdmem : d ∈ (Nat.digits 10 n).reverse := by
      rw [hcons]; exact List.mem_cons_self _ _
    have hd : d < 10 := Nat.digits_lt_base (by norm_num) (List.mem_reverse.mp hdmem)
    refine ⟨digitChar d, ds.map digitChar, ?_, (digitChar_spec d hd).1⟩
    simp [printNat, hn, hcons]

/-- A printed JSON value starts with a non-whitespace character that is
neither a closing bracket nor a closing brace. -/
theorem printJson_cons (j : Json) :
    ∃ c t, printJson j = c :: t ∧ isWsChar c = false ∧ c ≠ ']' ∧ c ≠ '\x7d' := by
  cases j with
  | null =>
    exact ⟨'n', ['u', 'l', 'l'], by simp [printJson], by decide, by decide, by decide⟩
  | bool b =>
    cases b with
    | false =>
      exact ⟨'f', ['a', 'l', 's', 'e'], by simp [printJson], by decide, by decide,
        by decide⟩
    | true =>
      exact ⟨'t', ['r', 'u', 'e'], by simp [printJson], by decide, by decide, by decide⟩
  | num i =>
    by_cases hi : i < 0
    · exact ⟨'-', printNat i.natAbs, by simp [printJson, printInt, hi], by decide,
        by decide, by decide⟩
    · obtain ⟨c, t, hct, hd⟩ := printNat_cons i.natAbs
      exact ⟨c, t, by simp [printJson, printInt, hi, hct], isDigit_not_ws hd,
        ne_of_isDigit hd (by decide), ne_of_isDigit hd (by decide)⟩
  | str s =>
    exact ⟨'\"', escapeChars s.data ++ ['\"'], by simp [printJson], by decide,
      by decide, by decide⟩
  | arr xs =>
    cases xs with
    | nil => exact ⟨'[', [']'], by simp [printJson], by decide, by decide, by decide⟩
    | cons x xs =>
      exact ⟨'[', printElems x xs ++ [']'], by simp [printJson], by decide, by decide,
        by decide⟩
  | obj fs =>
    cases fs with
    | nil =>
      exact ⟨'\x7b', ['\x7d'], by simp [printJson], by decide, by decide, by decide⟩
    | cons f fs =>
      exact ⟨'\x7b', printFields f fs ++ ['\x7d'], by simp [printJson], by decide,
        by decide, by decide⟩

/-- A printed element run starts like its first printed value. -/
theorem printElems_cons (x : Json) (xs : List Json) :
    ∃ c t, printElems x xs = c :: t ∧ isWsChar c = false ∧ c ≠ ']' := by
  obtain ⟨c, t, hct, hws, hrb, _⟩ := printJson_cons x
  cases xs with
  | nil => exact ⟨c, t, by simp [printElems, hct], hws, hrb⟩
  | cons y ys => exact ⟨c, t ++ ',' :: printElems y ys, by simp [printElems, hct], hws, hrb⟩

/-- A printed field run starts with a quote. -/
theorem printFields_cons (f : String × Json) (fs : List (String × Json)) :
    ∃ t, printFields f fs = '\"' :: t := by
  obtain ⟨k, v⟩ := f
  cases fs with
  | nil =>
    exact ⟨escapeChars k.data ++ '\"' :: ':' :: printJson v,
      by simp [printFields, printField]⟩
  | cons g gs =>
    exact ⟨escapeChars k.data ++ '\"' :: ':' :: printJson v ++ ',' :: printFields g gs,
      by simp [printFields, printField]⟩

/-- Printed JSON text is nonempty. -/
theorem printJson_length_pos (j : Json) : 0 < (printJson j).length := by
  obtain ⟨c, t, hct, _, _, _⟩ := printJson_cons j
  simp [hct]

/-- Rebuilding a string from its character data is the identity. -/
theorem stringMk_data (s : String) : String.mk s.data = s := rfl

/-- The joint round trip for the three parsers over the three printers. -/
theorem parse_print_aux : ∀ fuel : Nat,
    (∀ (j : Json) (rest : List Char), (printJson j).length ≤ fuel → delimOk rest = true →
        parseVal fuel (printJson j ++ rest) = some (j, rest)) ∧
    (∀ (x : Json) (xs : List Json) (rest : List Char),
        (printElems x xs).length + 1 ≤ fuel →
        parseElems fuel (printElems x xs ++ ']' :: rest) = some (x :: xs, rest)) ∧
    (∀ (f : String × Json) (fs : List (String × Json)) (rest : List Char),
        (printFields f fs).length + 1 ≤ fuel →
        parseFields fuel (printFields f fs ++ '\x7d' :: rest) = some (f :: fs, rest)) := by
  intro fuel
  induction fuel with
  | zero =>
    refine ⟨fun j rest hlen _ => ?_, fun x xs rest hlen => ?_, fun f fs rest hlen => ?_⟩
    · have := printJson_length_pos j; omega
    · omega
    · omega
  | succ n ih =>
    obtain ⟨ihP, ihQ, ihR⟩ := ih
    refine ⟨fun j rest hlen hrest => ?_, fun x xs rest hlen => ?_, fun f fs rest hlen => ?_⟩
    · cases j with
      | null =>
        rw [show printJson Json.null ++ rest = 'n' :: 'u' :: 'l' :: 'l' :: rest by
          simp [printJson]]
        rw [parseVal.eq_def]
        simp [skipWs, isWsChar]
      | bool b =>
        cases b with
        | true =>
          rw [show printJson (Json.bool true) ++ rest = 't' :: 'r' :: 'u' :: 'e' :: rest by
            simp [printJson]]
          rw [parseVal.eq_def]
          simp [skipWs, isWsChar]
        | false =>
          rw [show printJson (Json.bool false) ++ rest
              = 'f' :: 'a' :: 'l' :: 's' :: 'e' :: rest by simp [printJson]]
          rw [parseVal.eq_def]
          simp [skipWs, isWsChar]
      | num i =>
        by_cases hi : i < 0
        · rw [show printJson (Json.num i) ++ rest = '-' :: (printNat i.natAbs ++ rest) by
            simp [printJson, printInt, hi]]
          rw [parseVal.eq_def]
          simp [skipWs, isWsChar, parseNat_printNat i.natAbs rest hrest]
          rw [abs_of_neg hi, neg_neg]
        · obtain ⟨c, t, hct, hd⟩ := printNat_cons i.natAbs
          have hws := isDigit_not_ws hd
          have e1 : ¬ c = 'n' := ne_of_isDigit hd (by decide)
          have e2 : ¬ c = 't' := ne_of_isDigit hd (by decide)
          have e3 : ¬ c = 'f' := ne_of_isDigit hd (by decide)
          have e4 : ¬ c = '\"' := ne_of_isDigit hd (by decide)
          have e5 : ¬ c = '[' := ne_of_isDigit hd (by decide)
          have e6 : ¬ c = '\x7b' := ne_of_isDigit hd (by decide)
          have e7 : ¬ c = '-' := ne_of_isDigit hd (by decide)
          have hpn : parseNat (c :: (t ++ rest)) = some (i.natAbs, rest) := by
            rw [show (c :: (t ++ rest) : List Char) = printNat i.natAbs ++ rest by
              rw [hct]; simp]
            exact parseNat_printNat i.natAbs rest hrest
          rw [show printJson (Json.num i) ++ rest = c :: (t ++ rest) by
            simp [printJson, printInt, hi, hct]]
          have hni : ((i.natAbs : Nat) : Int) = i := by omega
          rw [parseVal.eq_def]
          simp [skipWs, hws, e1, e2, e3, e4, e5, e6, e7, hd, hpn, hni]
      | str s =>
        rw [show printJson (Json.str s) ++ rest
            = '\"' :: (escapeChars s.data ++ '\"' :: rest) by simp [printJson]]
        rw [parseVal.eq_def]
        simp [skipWs, isWsChar, parseStringBody_escape s.data rest, stringMk_data]
      | arr xs =>
        cases xs with
        | nil =>
          rw [show printJson (Json.arr []) ++ rest = '[' :: ']' :: rest by simp [printJson]]
          rw [parseVal.eq_def]
          simp [skipWs, isWsChar]
        | cons x xs =>
          obtain ⟨c2, t2, hct2, hws2, hrb2⟩ := printElems_cons x xs
          have hlen2 : (printJson (Json.arr (x :: xs))).length
              = (printElems x xs).length + 2 := by simp [printJson]
          have hq : parseElems n (c2 :: (t2 ++ ']' :: rest)) = some (x :: xs, rest) := by
            rw [show (c2 :: (t2 ++ ']' :: rest) : List Char)
                = printElems x xs ++ ']' :: rest by rw [hct2]; simp]
            exact ihQ x xs rest (by omega)
          rw [show printJson (Json.arr (x :: xs)) ++ rest
              = '[' :: (c2 :: (t2 ++ ']' :: rest)) by simp [printJson, hct2]]
          rw [parseVal.eq_def]
          simp [skipWs, hws2, hrb2, hq, show isWsChar '[' = false from by decide]
      | obj fs =>
        cases fs with
        | nil =>
          rw [show printJson (Json.obj []) ++ rest = '\x7b' :: '\x7d' :: rest by
            simp [printJson]]
          rw [parseVal.eq_def]
          simp [skipWs, isWsChar]
        | cons f fs =>
          obtain ⟨t2, hct2⟩ := printFields_cons f fs
          have hlen2 : (printJson (Json.obj (f :: fs))).length
              = (printFields f fs).length + 2 := by simp [printJson]
          have hr : parseFields n ('\"' :: (t2 ++ '\x7d' :: rest)) = some (f :: fs, rest) := by
            rw [show ('\"' :: (t2 ++ '\x7d' :: rest) : List Char)
                = printFields f fs ++ '\x7d' :: rest by rw [hct2]; simp]
            exact ihR f fs rest (by omega)
          rw [show printJson (Json.obj (f :: fs)) ++ rest
              = '\x7b' :: ('\"' :: (t2 ++ '\x7d' :: rest)) by simp [printJson, hct2]]
          rw [parseVal.eq_def]
          simp [skipWs, isWsChar, hr]
    · cases xs with
      | nil =>
        have hp : parseVal n (printElems x [] ++ ']' :: rest) = some (x, ']' :: rest) := by
          rw [show printElems x [] = printJson x by simp [printElems]]
          refine ihP x (']' :: rest) ?_ rfl
          have : (printElems x []).length = (printJson x).length := by simp [printElems]
          omega
        rw [parseElems.eq_def]
        simp [hp, skipWs, isWsChar]
      | cons y ys =>
        have hlen2 : (printElems x (y :: ys)).length
            = (printJson x).length + 1 + (printElems y ys).length := by
          simp [printElems]; omega
        have hpos := printJson_length_pos x
        have hp : parseVal n (printJson x ++ (',' :: (printElems y ys ++ ']' :: rest)))
            = some (x, ',' :: (printElems y ys ++ ']' :: rest)) := by
          refine ihP x _ ?_ rfl
          omega
        have hq : parseElems n (printElems y ys ++ ']' :: rest) = some (y :: ys, rest) :=
          ihQ y ys rest (by omega)
        rw [show printElems x (y :: ys) ++ ']' :: rest
            = printJson x ++ (',' :: (printElems y ys ++ ']' :: rest)) by simp [printElems]]
        rw [parseElems.eq_def]
        simp [hp, skipWs, isWsChar, hq]
    · obtain ⟨k, v⟩ := f
      cases fs with
      | nil =>
        have hlenF : (printField (k, v)).length
            = (escapeChars k.data).length + 3 + (printJson v).length := by
          simp [printField]
          omega
        have hp : parseVal n (printJson v ++ '\x7d' :: rest) = some (v, '\x7d' :: rest) := by
          refine ihP v ('\x7d' :: rest) ?_ rfl
          have : (printFields (k, v) []).length = (printField (k, v)).length := by
            simp [printFields]
          omega
        rw [show printFields (k, v) [] ++ '\x7d' :: rest
            = '\"' :: (escapeChars k.data ++ '\"' :: ':' :: (printJson v ++ '\x7d' :: rest))
            by simp [printFields, printField]]
        rw [parseFields.eq_def]
        simp [parseStringBody_escape k.data, skipWs, isWsChar, hp, stringMk_data]
      | cons g1 gs1 =>
        have hlenF : (printField (k, v)).length
            = (escapeChars k.data).length + 3 + (printJson v).length := by
          simp [printField]
          omega
        have hlen2 : (printFields (k, v) (g1 :: gs1)).length
            = (printField (k, v)).length + 1 + (printFields g1 gs1).length := by
          simp [printFields]; omega
        have hp : parseVal n
            (printJson v ++ (',' :: (printFields g1 gs1 ++ '\x7d' :: rest)))
            = some (v, ',' :: (printFields g1 gs1 ++ '\x7d' :: rest)) := by
          refine ihP v _ ?_ rfl
          omega
        have hr : parseFields n (printFields g1 gs1 ++ '\x7d' :: rest)
            = some (g1 :: gs1, rest) := ihR g1 gs1 rest (by omega)
        rw [show printFields (k, v) (g1 :: gs1) ++ '\x7d' :: rest
            = '\"' :: (escapeChars k.data ++ '\"' :: ':'
                :: (printJson v ++ (',' :: (printFields g1 gs1 ++ '\x7d' :: rest))))
            by simp [printFields, printField]]
        rw [parseFields.eq_def]
        simp [parseStringBody_escape k.data, skipWs, isWsChar, hp, hr, stringMk_data]

/-- The master JSON round trip: parsing a printed value recovers it. -/
theorem Json.parse_print (j : Json) : Json.parse (Json.print j) = some j := by
  have h := (parse_print_aux ((printJson j).length + 1)).1 j [] (by omega) rfl
  rw [show printJson j ++ ([] : List Char) = printJson j from by simp] at h
  unfold Json.parse Json.print
  simp [h, skipWs]

/-!
Claim theorems.
-/

/-- Claim C1 (code evaluation): when the incoming request presents the flash
cookie and the handler stages a new encoded payload, `FlashMiddleware::call`
attaches BOTH the new-value Set-Cookie and a deletion Set-Cookie for the same
name: the jar-delta deletion block runs unconditionally, so the output is not
a single Set-Cookie for the name, contradicting the claim. -/
theorem flash_refresh_also_emits_deletion :
    FlashMiddleware.call "_flash" c1Service c1Req =
      .ok { request := { cookies := [c1Cookie], flashExt := some c1Cookie },
            response :=
              { status := 200,
                headers := [],
                setCookies :=
                  [{ name := "_flash", value := "new", path := some "/", removal := false },
                   { name := "_flash", value := "", path := some "/", removal := true }],
                flashValueExt := some "new" } } := by
  rfl

/-- Claim C2: a cycle whose originating request carries the configured cookie
and whose handler stages nothing gets exactly one deletion Set-Cookie appended
(same name, empty value, path `/`, expired), computed by re-reading the
response's originating request (the stored `flashExt` copy is irrelevant),
and no message-bearing cookie. -/
theorem flash_deletes_unrefreshed_cookie {ε : Type} (cookie_name : String)
    (service : ServiceRequest → Except ε ServiceResponse)
    (req : ServiceRequest) (res : ServiceResponse) (c : Cookie)
    (hsvc : service (requestPhase cookie_name req) = .ok res)
    (hstage : res.response.flashValueExt = none)
    (hcook : res.request.cookie cookie_name = some c) :
    FlashMiddleware.call cookie_name service req =
      .ok { res with response := { res.response with
        setCookies := res.response.setCookies
          ++ [{ name := cookie_name, value := "", path := some "/", removal := true }] } } := by
  have hc : (c.name == cookie_name) = true := by
    have h1 : res.request.cookies.find? (fun k => k.name == cookie_name) = some c := by
      simpa [ServiceRequest.cookie] using hcook
    have h2 := List.find?_some h1
    simpa using h2
  simp [FlashMiddleware.call, hsvc, Except.map, responsePhase, hstage, hcook,
    CookieJar.new, CookieJar.add_original, CookieJar.remove, CookieJar.delta,
    Cookie.new, Cookie.set_path, Cookie.make_removal, HttpResponse.add_cookie, hc]

/-- Claim C2 witness: the deletion behaviour at a concrete cycle. -/
theorem flash_deletes_unrefreshed_cookie_witness :
    FlashMiddleware.call "_flash" w2Service w2Req =
      .ok { w2Res with response := { w2Res.response with
        setCookies := w2Res.response.setCookies
          ++ [{ name := "_flash", value := "", path := some "/", removal := true }] } } :=
  flash_deletes_unrefreshed_cookie "_flash" w2Service w2Req w2Res w2Cookie rfl rfl rfl

/-- Claim C3: whenever the response carries a staged encoded payload, the
middleware attaches a Set-Cookie with the configured name, the staged value,
and path `/` — independent of any incoming cookie or its path. -/
theorem flash_writes_staged_cookie {ε : Type} (cookie_name : String)
    (service : ServiceRequest → Except ε ServiceResponse)
    (req : ServiceRequest) (res : ServiceResponse) (json : String)
    (hsvc : service (requestPhase cookie_name req) = .ok res)
    (hstage : res.response.flashValueExt = some json) :
    ∃ out, FlashMiddleware.call cookie_name service req = .ok out ∧
      { name := cookie_name, value := json, path := some "/", removal := false } ∈
        out.response.setCookies := by
  refine ⟨responsePhase cookie_name res,
    by simp [FlashMiddleware.call, hsvc, Except.map], ?_⟩
  simp only [responsePhase, hstage]
  cases hfind : res.request.cookie cookie_name with
  | none =>
    simp [hfind, CookieJar.new, CookieJar.delta, HttpResponse.add_cookie,
      Cookie.new, Cookie.set_path]
  | some c0 =>
    have h1 : res.request.cookies.find? (fun k => k.name == cookie_name) = some c0 := by
      simpa [ServiceRequest.cookie] using hfind
    have hc0 := List.find?_some h1
    simp [hfind, CookieJar.new, CookieJar.add_original, CookieJar.remove,
      CookieJar.delta, Cookie.make_removal, HttpResponse.add_cookie,
      Cookie.new, Cookie.set_path, hc0]

/-- Claim C3 witness: the staged cookie at a concrete cycle. -/
theorem flash_writes_staged_cookie_witness :
    ∃ out, FlashMiddleware.call "_flash" w3Service w3Req = .ok out ∧
      { name := "_flash", value := w3Json, path := some "/", removal := false } ∈
        out.response.setCookies :=
  flash_writes_staged_cookie "_flash" w3Service w3Req w3Res w3Json rfl rfl

/-- Claim C7: with no incoming cookie of the configured name and no staged
payload, the middleware returns the handler's response completely unchanged —
zero flash-related headers. -/
theorem flash_noop_without_cookie_or_message {ε : Type} (cookie_name : String)
    (service : ServiceRequest → Except ε ServiceResponse)
    (req : ServiceRequest) (res : ServiceResponse)
    (hreqc : req.cookie cookie_name = none)
    (hsvc : service req = .ok res)
    (hstage : res.response.flashValueExt = none)
    (hresc : res.request.cookie cookie_name = none) :
    FlashMiddleware.call cookie_name service req = .ok res := by
  simp [FlashMiddleware.call, requestPhase, hreqc, hsvc, Except.map, responsePhase,
    hstage, hresc, CookieJar.new, CookieJar.delta]

/-- Claim C7 witness: the no-op behaviour at a concrete cycle. -/
theorem flash_noop_without_cookie_or_message_witness :
    FlashMiddleware.call "_flash" w7Service w7Req = .ok w7Res :=
  flash_noop_without_cookie_or_message "_flash" w7Service w7Req w7Res rfl rfl rfl rfl

/-- Claim C9: an error of the wrapped service propagates unchanged through the
middleware; no response-phase cookie logic runs (the result is the very
error, with no response to attach cookies to). -/
theorem flash_propagates_service_error {ε : Type} (cookie_name : String)
    (service : ServiceRequest → Except ε ServiceResponse)
    (req : ServiceRequest) (e : ε)
    (hsvc : service (requestPhase cookie_name req) = .error e) :
    FlashMiddleware.call cookie_name service req = .error e := by
  simp [FlashMiddleware.call, hsvc, Except.map]

/-- Claim C9 witness: error propagation at a concrete cycle. -/
theorem flash_propagates_service_error_witness :
    FlashMiddleware.call "_flash" w9Service { cookies := [] } = .error "boom" :=
  flash_propagates_service_error "_flash" w9Service { cookies := [] } "boom" rfl

/-- Claim C8: `Response::with_redirect` builds an HTTP 303 See Other response
whose Location header is the given location, carrying the message. -/
theorem with_redirect_builds_see_other {T : Type} (m : T) (l : String) :
    (Response.with_redirect m l).responder.status = 303 ∧
    (Response.with_redirect m l).responder.headers = [("Location", l)] ∧
    (Response.with_redirect m l).message = some (Message.new m) :=
  ⟨rfl, rfl, rfl⟩

/-- Claim C10: `Message::new` followed by `into_inner` is the identity. -/
theorem message_new_into_inner {T : Type} (v : T) :
    (Message.new v).into_inner = v := rfl

/-- Claim C4: decoding the encoding of any serializable value yields the
value back (the codec wraps the payload under the key underscore and the
envelope survives the JSON string round trip). -/
theorem flash_codec_round_trip {T : Type} (ser : T → Json) (de : Json → Option T)
    (v : T) (h : de (ser v) = some v) :
    decodeFlashValue de (encodeFlashValue ser v) = some v := by
  unfold encodeFlashValue decodeFlashValue
  rw [Json.parse_print]
  simp [getUnderscoreField, h]

/-- Claim C4 witness: the round trip at a concrete value. -/
theorem flash_codec_round_trip_witness :
    decodeFlashValue some (encodeFlashValue id (Json.str "This is the message"))
      = some (Json.str "This is the message") :=
  flash_codec_round_trip id some (Json.str "This is the message") rfl

/-- Claim C5: extraction fails with the single bad-request error when no
flash cookie is stored, when the stored value is `not-json`, and when it is
JSON lacking the key underscore — identically in all three cases — and a
successful extraction always comes from a stored cookie whose value decodes. -/
theorem message_extraction_rejects_missing_and_malformed {T : Type}
    (de : Json → Option T) :
    (∀ req : ServiceRequest, req.flashExt = none →
        Message.from_request de req
          = .error (.badRequest "Invalid/missing flash cookie")) ∧
    (∀ (req : ServiceRequest) (c : Cookie), req.flashExt = some c →
        c.value = "not-json" →
        Message.from_request de req
          = .error (.badRequest "Invalid/missing flash cookie")) ∧
    (∀ (req : ServiceRequest) (c : Cookie), req.flashExt = some c →
        c.value = "\x7b\"wrong_key\": 1\x7d" →
        Message.from_request de req
          = .error (.badRequest "Invalid/missing flash cookie")) ∧
    (∀ (req : ServiceRequest) (m : Message T),
        Message.from_request de req = .ok m →
        ∃ c, req.flashExt = some c ∧ decodeFlashValue de c.value = some m.val) := by
  refine ⟨?_, ?_, ?_, ?_⟩
  · intro req h
    simp [Message.from_request, h]
  · intro req c h hv
    have hdec : decodeFlashValue de c.value = none := by
      rw [hv]
      unfold decodeFlashValue
      rw [show Json.parse "not-json" = none from rfl]
    simp [Message.from_request, h, hdec]
  · intro req c h hv
    have hdec : decodeFlashValue de c.value = none := by
      rw [hv]
      unfold decodeFlashValue
      rw [show Json.parse "\x7b\"wrong_key\": 1\x7d"
          = some (Json.obj [("wrong_key", Json.num 1)]) from rfl]
      simp [getUnderscoreField]
    simp [Message.from_request, h, hdec]
  · intro req m hok
    obtain ⟨mv⟩ := m
    cases hext : req.flashExt with
    | none => simp [Message.from_request, hext] at hok
    | some c =>
      cases hdec : decodeFlashValue de c.value with
      | none => simp [Message.from_request, hext, hdec] at hok
      | some v =>
        refine ⟨c, rfl, ?_⟩
        simp [Message.from_request, hext, hdec] at hok
        simp [hdec, hok]

/-- Claim C5 witness: the three rejection cases at concrete requests. -/
theorem message_extraction_rejects_missing_and_malformed_witness :
    Message.from_request (fun j => some j) w5ReqNone
        = .error (.badRequest "Invalid/missing flash cookie") ∧
    Message.from_request (fun j => some j) w5ReqBad
        = .error (.badRequest "Invalid/missing flash cookie") ∧
    Message.from_request (fun j => some j) w5ReqWrong
        = .error (.badRequest "Invalid/missing flash cookie") :=
  ⟨(message_extraction_rejects_missing_and_malformed (fun j => some j)).1 w5ReqNone rfl,
   (message_extraction_rejects_missing_and_malformed
      (fun j => some j)).2.1 w5ReqBad w5BadCookie rfl rfl,
   (message_extraction_rejects_missing_and_malformed
      (fun j => some j)).2.2.1 w5ReqWrong w5WrongCookie rfl rfl⟩

/-- Claim C6: decoding a cookie value succeeds exactly when the text parses
as a JSON object carrying the key underscore with a payload that `T`'s
deserializer accepts; every other input is a decode failure. -/
theorem decode_accepts_exactly_envelope {T : Type} (de : Json → Option T)
    (s : String) (v : T) :
    decodeFlashValue de s = some v ↔
      ∃ fields p, Json.parse s = some (Json.obj fields) ∧
        getUnderscoreField fields = some p ∧ de p = some v := by
  unfold decodeFlashValue
  cases hp : Json.parse s with
  | none => simp
  | some j =>
    cases j with
    | null => simp
    | bool b => simp
    | num i => simp
    | str t => simp
    | arr xs => simp
    | obj fields =>
      cases hg : getUnderscoreField fields with
      | none => simp [hg]
      | some p => simp [hg]
